import Mathlib

/-!
Shallow embedding of the `thrift_client` library (two source modules:
the legacy top-level `thrift_client.py`, embedded in namespace `Legacy`,
and the package module `thrift_client/thrift_client.py`, embedded in
namespace `Pkg`).

Remote values are modelled as integers (`Val`) and remote/transport
errors as strings; the external world (the thrift network adapter and
the optional call-log sink) is an explicit `Env` record.  Each client
call returns, besides its Python result, a trace of I/O `Event`s so
that claims about "no network I/O performed" are statable.
-/

/-- Values exchanged with the remote service (Python objects, modelled as integers). -/
abbrev Val := Int

/-- The Python exception classes that appear in the two modules.
`remote e` stands for an arbitrary exception raised by the external
thrift adapter or log transport (its payload is an opaque string). -/
inductive PyErrKind where
  | clientDisabledError
  | valueError
  | keyError
  | typeError
  | zeroDivisionError
  | remote (e : String)
  deriving DecidableEq, Repr

/-- Observable I/O events of a single endpoint invocation.
`logWrite` records whether the (swallowed) file write raised. -/
inductive Event where
  | logOpen (host : String) (port : Int)
  | logWrite (host : String) (port : Int) (failed : Bool)
  | netCall (host : String) (port : Int) (k : String)
  deriving DecidableEq, Repr

/-- The external collaborators of the library: the thrift network
adapter (`net`, covering `_connect` plus the remote method call), the
outcome of opening the log-file transport (`_connect_file`), and
whether the log write raises. -/
structure Env where
  net : String → Int → String → List Val → List (String × Val) → Except String Val
  logOpenExc : String → Int → Option String
  logWriteFails : String → Int → Bool

/-- One element of the tuple `args + tuple(sorted(kwargs.items()))`
that the hash router hashes: either a positional argument or a
`(key, value)` item of the keyword dictionary. -/
inductive KeyElem where
  | pos (v : Val)
  | item (k : String) (v : Val)
  deriving DecidableEq, Repr

/-- The hash key: the flat Python tuple fed to `hash()`. -/
abbrev HashKey := List KeyElem

/-- Python tuple comparison on `(key, value)` items, as used by
`sorted(kwargs.items())`: lexicographic on the key, ties broken by the
value. -/
def itemLe (p q : String × Val) : Prop :=
  p.1 < q.1 ∨ (p.1 = q.1 ∧ p.2 ≤ q.2)

instance : DecidableRel itemLe := fun p q => by
  unfold itemLe
  exact inferInstance

instance : IsTotal (String × Val) itemLe := by
  constructor
  intro p q
  rcases lt_trichotomy p.1 q.1 with h | h | h
  · exact Or.inl (Or.inl h)
  · rcases le_total p.2 q.2 with h2 | h2
    · exact Or.inl (Or.inr ⟨h, h2⟩)
    · exact Or.inr (Or.inr ⟨h.symm, h2⟩)
  · exact Or.inr (Or.inl h)

instance : IsTrans (String × Val) itemLe := by
  constructor
  intro p q r hpq hqr
  rcases hpq with h1 | ⟨h1, h1v⟩
  · rcases hqr with h2 | ⟨h2, _⟩
    · exact Or.inl (h1.trans h2)
    · exact Or.inl (h2 ▸ h1)
  · rcases hqr with h2 | ⟨h2, h2v⟩
    · exact Or.inl (h1 ▸ h2)
    · exact Or.inr ⟨h1.trans h2, h1v.trans h2v⟩

instance : IsAntisymm (String × Val) itemLe := by
  constructor
  intro p q hpq hqp
  rcases hpq with h1 | ⟨h1, h1v⟩
  · rcases hqp with h2 | ⟨h2, _⟩
    · exact absurd (h1.trans h2) (lt_irrefl _)
    · exact absurd h1 (h2 ▸ lt_irrefl _)
  · rcases hqp with h2 | ⟨_, h2v⟩
    · exact absurd (h1 ▸ h2) (lt_irrefl _)
    · exact Prod.ext h1 (le_antisymm h1v h2v)

/-- `sorted(kwargs.items())`. -/
def sortKwargs (l : List (String × Val)) : List (String × Val) :=
  l.insertionSort itemLe

/-- The default hash key `args + tuple(sorted(kwargs.items()))`. -/
def defaultHashKey (args : List Val) (kwargs : List (String × Val)) : HashKey :=
  args.map KeyElem.pos ++ (sortKwargs kwargs).map (fun p => KeyElem.item p.1 p.2)

/-- `hashval % len(servers)`: Python `%` with a positive divisor agrees
with the Euclidean remainder. -/
def pickIdx (v : Int) (n : Nat) : Nat :=
  (v.emod (n : Int)).toNat

theorem pickIdx_lt (v : Int) {n : Nat} (h : n ≠ 0) : pickIdx v n < n := by
  have hn : (0 : Int) < (n : Int) := by
    exact_mod_cast Nat.pos_of_ne_zero h
  have h1 : 0 ≤ v.emod (n : Int) := Int.emod_nonneg v (by omega)
  have h2 : v.emod (n : Int) < (n : Int) := Int.emod_lt_of_pos v hn
  unfold pickIdx
  omega

/-- `_DEFAULT_TIMEOUT = 60001`. -/
def DEFAULT_TIMEOUT : Int := 60001

/-- Python truthiness of an optional string (`None` and `''` are falsy). -/
def truthyStr : Option String → Bool
  | some s => s ≠ ""
  | none => false

/-- Python truthiness of an optional integer (`None` and `0` are falsy). -/
def truthyInt : Option Int → Bool
  | some n => n ≠ 0
  | none => false

/-- `key in dict`. -/
def dictContains (d : List (String × α)) (k : String) : Bool :=
  d.any (fun p => p.1 = k)

/-- `dict[key]` as an option. -/
def dictGet (d : List (String × α)) (k : String) : Option α :=
  (d.find? (fun p => p.1 = k)).map Prod.snd

/-- `dict[key] = v`: overwrite in place if the key exists, append otherwise. -/
def dictInsert (d : List (String × α)) (k : String) (v : α) : List (String × α) :=
  if dictContains d k then d.map (fun p => if p.1 = k then (k, v) else p)
  else d ++ [(k, v)]

/-- `del dict[key]` (the caller checks presence, as CPython raises `KeyError`). -/
def dictDelete (d : List (String × α)) (k : String) : List (String × α) :=
  d.filter (fun p => p.1 ≠ k)

/-- `list.remove(x)` modulo a match predicate: drop the first matching
element, or report `none` when there is no match (CPython raises
`ValueError`). -/
def removeFirst (p : α → Bool) : List α → Option (List α)
  | [] => none
  | x :: xs => if p x then some xs else (removeFirst p xs).map (fun l => x :: l)

/-- `_canonicalize_hostport(host, port)`, shared verbatim by both modules.
`host` is required whenever it would be stored (callers in both modules
always pass it together with a port or as a `host:port` string). -/
def canonicalize_hostport (host : Option String) (port : Option Int) :
    Except PyErrKind (String × Int) :=
  match port, host with
  | some p, some h => .ok (h, p)
  | some _, none => .error .typeError
  | none, some h =>
    match h.splitOn ":" with
    | [h1, pstr] =>
      match pstr.toInt? with
      | some p => .ok (h1, p)
      | none => .error .valueError
    | [_] => .error .valueError
    | _ => .error .valueError
  | none, none => .error .typeError

namespace Pkg

/-- `SimpleClient` of `thrift_client/thrift_client.py` (one endpoint):
address, protocol descriptor (opaque, modelled by its name), framing
flag, timeout, optional log sink (`hasFile` stands for `self.file`
being non-None), enabled flag, and pool name. -/
structure SimpleClient where
  protocol : String
  host : String
  port : Int
  frame : Bool
  timeout : Int
  hasFile : Bool
  enabled : Bool
  name : String
  deriving DecidableEq, Repr

/-- `SimpleClient.__init__`.  `idN` stands for the CPython object id
used by the derived name `'%s-%d' % (self.protocol.__name__, id(self))`
when no name is supplied (`name or ...`, so the empty string also
falls back to the derived name; `timeout or _DEFAULT_TIMEOUT`, so a
zero timeout also falls back to the default). -/
def SimpleClient.init (protocol : String) (host : Option String) (port : Option Int)
    (frame : Bool) (log_filename : Option String) (timeout : Option Int)
    (name : Option String) (idN : Nat) : Except PyErrKind SimpleClient :=
  match canonicalize_hostport host port with
  | .error e => .error e
  | .ok (h, p) =>
    .ok { protocol := protocol
          host := h
          port := p
          frame := frame
          timeout := match timeout with
            | some t => if t = 0 then DEFAULT_TIMEOUT else t
            | none => DEFAULT_TIMEOUT
          hasFile := log_filename.isSome
          enabled := true
          name := match name with
            | some n => if n = "" then protocol ++ "-" ++ toString idN else n
            | none => protocol ++ "-" ++ toString idN }

/-- `SimpleClient.enable`. -/
def SimpleClient.enable (self : SimpleClient) : SimpleClient :=
  { self with enabled := true }

/-- `SimpleClient.disable`. -/
def SimpleClient.disable (self : SimpleClient) : SimpleClient :=
  { self with enabled := false }

/-- `SimpleClient.is_enabled`. -/
def SimpleClient.is_enabled (self : SimpleClient) : Bool :=
  self.enabled

/-- `SimpleClient.__eq__`: equality on `(host, port, protocol)`. -/
def SimpleClient.pyEq (a b : SimpleClient) : Bool :=
  a.host = b.host && a.port = b.port && a.protocol = b.protocol

/-- The proxy closure returned by `SimpleClient.__getattr__(k)`, applied
to `(*args, **kwargs)`.  Mirrors the body line by line: the disabled
check comes first; `self._connect_file()` runs OUTSIDE the
`try/except`, so an exception while opening the log transport
propagates; the file write itself is inside `try: ... except: pass`
(when no file is attached the unbound `client_file` raises a swallowed
`NameError`); then the real connect-call-close cycle runs via the
external adapter. -/
def SimpleClient.call (env : Env) (self : SimpleClient) (k : String)
    (args : List Val) (kwargs : List (String × Val)) :
    Except PyErrKind Val × List Event :=
  if !self.is_enabled then (.error .clientDisabledError, [])
  else
    match (if self.hasFile then env.logOpenExc self.host self.port else none) with
    | some e => (.error (.remote e), [.logOpen self.host self.port])
    | none =>
      let logEvs :=
        if self.hasFile then
          [Event.logOpen self.host self.port,
           Event.logWrite self.host self.port (env.logWriteFails self.host self.port)]
        else []
      match env.net self.host self.port k args kwargs with
      | .ok v => (.ok v, logEvs ++ [.netCall self.host self.port k])
      | .error e => (.error (.remote e), logEvs ++ [.netCall self.host self.port k])

/-- A Python exception object as it travels through the pool classes:
its class (`kind`) plus the `server` attribute that the hash clients
attach (`e.server = server`). -/
structure PyErr where
  kind : PyErrKind
  server : Option SimpleClient := none
  deriving DecidableEq, Repr

/-- `ThriftResponse(server, response)` / `ThriftExceptionResponse(server, exception)`. -/
inductive ThriftResp where
  | response (server : SimpleClient) (value : Val)
  | exceptionResponse (server : SimpleClient) (exception : PyErr)
  deriving DecidableEq, Repr

/-- `ThriftResponse.value` / `ThriftExceptionResponse.value`: a success
returns its payload; an exception response sets `exception.server` and
re-raises. -/
def ThriftResp.value : ThriftResp → Except PyErr Val
  | .response _ v => .ok v
  | .exceptionResponse server e => .error { e with server := some server }

/-- `ThriftResponse.is_error` / `ThriftExceptionResponse.is_error`. -/
def ThriftResp.is_error : ThriftResp → Bool
  | .response _ _ => false
  | .exceptionResponse _ _ => true

/-- The server an aggregate response is tagged with. -/
def ThriftResp.server : ThriftResp → SimpleClient
  | .response s _ => s
  | .exceptionResponse s _ => s

/-- `MultiClient` state: protocol, framing flag, the stored timeout,
the ordered server list and the name index `server_dict`. -/
structure MultiClient where
  protocol : String
  frame : Bool
  timeout : Option Int
  servers : List SimpleClient
  server_dict : List (String × SimpleClient)
  deriving DecidableEq, Repr

/-- `MultiClient.__init__`: note `self.timeout = None` — the `timeout`
argument is discarded. -/
def MultiClient.init (protocol : String) (frame : Bool) (timeout : Option Int) : MultiClient :=
  { protocol := protocol
    frame := frame
    timeout := none
    servers := []
    server_dict := [] }

/-- `MultiClient.get_server(name, host, port)`. -/
def MultiClient.get_server (self : MultiClient) (name : Option String)
    (host : Option String) (port : Option Int) : Except PyErrKind SimpleClient :=
  if truthyStr name then
    match name.bind (dictGet self.server_dict) with
    | some s => .ok s
    | none => .error .keyError
  else if truthyStr host && truthyInt port then
    match canonicalize_hostport host port with
    | .error e => .error e
    | .ok (h, p) =>
      match self.servers.find? (fun s => s.host = h && s.port = p) with
      | some s => .ok s
      | none => .error .keyError
  else .error .keyError

/-- `MultiClient.add_server(host, port, server, name)`.  The returned
`MultiClient` is the state after whatever mutations ran before a raise:
the server is appended to `self.servers` BEFORE the duplicate-name
check, and the check tests the `name` ARGUMENT (not `server.name`)
against the index, so a failed add leaves the appended server behind
and an added reference is never checked for a duplicated own name. -/
def MultiClient.add_server (self : MultiClient) (host : Option String) (port : Option Int)
    (server : Option SimpleClient) (name : Option String) (idN : Nat) :
    MultiClient × Except PyErrKind SimpleClient :=
  let mk : Except PyErrKind SimpleClient :=
    match server with
    | some s => .ok s
    | none => SimpleClient.init self.protocol host port self.frame none self.timeout name idN
  match mk with
  | .error e => (self, .error e)
  | .ok server =>
    let self1 := { self with servers := self.servers ++ [server] }
    match name with
    | some n =>
      if dictContains self1.server_dict n then
        (self1, .error .valueError)
      else
        ({ self1 with server_dict := dictInsert self1.server_dict server.name server },
         .ok server)
    | none =>
      ({ self1 with server_dict := dictInsert self1.server_dict server.name server },
       .ok server)

/-- The `if server:` branch of `MultiClient.remove_server`:
`self.servers.remove(server)` (first `__eq__` match, `ValueError` when
absent) then `del self.server_dict[server.name]` (`KeyError` when
absent). -/
def MultiClient.removeByRef (self : MultiClient) (s : SimpleClient) :
    MultiClient × Option PyErrKind :=
  match removeFirst (fun x => x.pyEq s) self.servers with
  | none => (self, some .valueError)
  | some servers1 =>
    let self1 := { self with servers := servers1 }
    if dictContains self1.server_dict s.name then
      ({ self1 with server_dict := dictDelete self1.server_dict s.name }, none)
    else (self1, some .keyError)

/-- The `for server in to_remove:` loop of `MultiClient.remove_server`. -/
def MultiClient.removeAll (self : MultiClient) : List SimpleClient → MultiClient × Option PyErrKind
  | [] => (self, none)
  | s :: rest =>
    match self.removeByRef s with
    | (self1, none) => self1.removeAll rest
    | (self1, some e) => (self1, some e)

/-- `MultiClient.remove_server(server, name, host, port)` with its
keyword parameters in source order. -/
def MultiClient.remove_server (self : MultiClient) (server : Option SimpleClient)
    (name : Option String) (host : Option String) (port : Option Int) :
    MultiClient × Option PyErrKind :=
  match server with
  | some s => self.removeByRef s
  | none =>
    if truthyStr name then
      match self.get_server name none none with
      | .error e => (self, some e)
      | .ok s => self.removeByRef s
    else
      match canonicalize_hostport host port with
      | .error e => (self, some e)
      | .ok (h, p) =>
        self.removeAll (self.servers.filter (fun s => h = s.host && p = s.port))

/-- The positional call `MultiClient.remove_server(self, server, host, port)`
made by `HashClient.remove_server` and `HashClient`'s `self.all`: the
`host` argument binds the `name` parameter and the `port` argument
binds the `host` parameter (whose later use,
`_canonicalize_hostport(port_value, None)`, iterates over a non-string
and raises `TypeError`). -/
def MultiClient.remove_server_slip (self : MultiClient) (server : Option SimpleClient)
    (host : Option String) (port : Option Int) : MultiClient × Option PyErrKind :=
  match server with
  | some s => self.removeByRef s
  | none =>
    if truthyStr host then
      match self.get_server host none none with
      | .error e => (self, some e)
      | .ok s => self.removeByRef s
    else
      match port with
      | _ => (self, some .typeError)

/-- The body of the closure returned by `ReplicatedClient.__getattr__`
(the package `ReplicatedClient` adds no state to `MultiClient`): one
`ThriftResponse`/`ThriftExceptionResponse` per server, in pool order,
every per-server exception caught and wrapped. -/
def replicatedCall (env : Env) (k : String) (args : List Val)
    (kwargs : List (String × Val)) : List SimpleClient → List ThriftResp × List Event
  | [] => ([], [])
  | server :: rest =>
    let r := SimpleClient.call env server k args kwargs
    let resp := match r.1 with
      | .ok v => ThriftResp.response server v
      | .error e => ThriftResp.exceptionResponse server { kind := e }
    let tail := replicatedCall env k args kwargs rest
    (resp :: tail.1, r.2 ++ tail.2)

/-- `HashClient` state: the inherited `MultiClient` fields (`base`),
the nested `ReplicatedClient` (`all`, itself bare `MultiClient` state),
and the per-method custom hash functions. -/
structure HashClient where
  base : MultiClient
  all : MultiClient
  hashfns : List (String × (List Val → List (String × Val) → HashKey))

/-- `HashClient.__init__`. -/
def HashClient.init (protocol : String) (frame : Bool) (timeout : Option Int) : HashClient :=
  { base := MultiClient.init protocol frame timeout
    all := MultiClient.init protocol frame timeout
    hashfns := [] }

/-- `HashClient.add_server(host, port, server)`: delegates to
`MultiClient.add_server` (positionally, so `name` is `None`), then
mirrors the added server into `self.all`. -/
def HashClient.add_server (self : HashClient) (host : Option String) (port : Option Int)
    (server : Option SimpleClient) (idN : Nat) :
    HashClient × Except PyErrKind SimpleClient :=
  let r := self.base.add_server host port server none idN
  match r.2 with
  | .error e => ({ self with base := r.1 }, .error e)
  | .ok server =>
    let r2 := self.all.add_server none none (some server) none idN
    match r2.2 with
    | .error e => ({ self with base := r.1, all := r2.1 }, .error e)
    | .ok _ => ({ self with base := r.1, all := r2.1 }, .ok server)

/-- `HashClient.remove_server(server, host, port)`: both delegated
calls are positional, so they hit the shifted parameter binding of
`MultiClient.remove_server` (see `remove_server_slip`). -/
def HashClient.remove_server (self : HashClient) (server : Option SimpleClient)
    (host : Option String) (port : Option Int) : HashClient × Option PyErrKind :=
  let r := self.base.remove_server_slip server host port
  match r.2 with
  | some e => ({ self with base := r.1 }, some e)
  | none =>
    let r2 := self.all.remove_server_slip server host port
    ({ self with base := r.1, all := r2.1 }, r2.2)

/-- `HashClient.set_hash(fnname, hashfn)`. -/
def HashClient.set_hash (self : HashClient) (fnname : String)
    (hashfn : List Val → List (String × Val) → HashKey) : HashClient :=
  { self with hashfns := dictInsert self.hashfns fnname hashfn }

/-- The hash key computed by `HashClient.__getattr__`: the registered
custom function for `k` if any, else the default key. -/
def HashClient.hashkeyFor (self : HashClient) (k : String) (args : List Val)
    (kwargs : List (String × Val)) : HashKey :=
  match dictGet self.hashfns k with
  | some fn => fn args kwargs
  | none => defaultHashKey args kwargs

/-- The server picked by `HashClient.__getattr__`:
`self.servers[hash(hashkey) % len(self.servers)]`; `none` when the pool
is empty (`% 0` raises `ZeroDivisionError`).  `pyHash` stands for
Python's builtin `hash`. -/
def HashClient.selectedServer (pyHash : HashKey → Int) (self : HashClient) (k : String)
    (args : List Val) (kwargs : List (String × Val)) : Option SimpleClient :=
  let hashval := pyHash (self.hashkeyFor k args kwargs)
  if h : self.base.servers.length = 0 then none
  else some (self.base.servers.get ⟨pickIdx hashval self.base.servers.length,
    pickIdx_lt hashval h⟩)

/-- The closure returned by the package `HashClient.__getattr__`,
applied to `(*args, **kwargs)`: pick the server, invoke it, and wrap
the outcome — a success as `ThriftResponse`, an exception as
`ThriftExceptionResponse` after setting `e.server = server`.  Only the
`ZeroDivisionError` of an empty pool escapes. -/
def HashClient.call (env : Env) (pyHash : HashKey → Int) (self : HashClient) (k : String)
    (args : List Val) (kwargs : List (String × Val)) :
    Except PyErr ThriftResp × List Event :=
  match HashClient.selectedServer pyHash self k args kwargs with
  | none => (.error { kind := .zeroDivisionError }, [])
  | some server =>
    match SimpleClient.call env server k args kwargs with
    | (.ok ret, evs) => (.ok (.response server ret), evs)
    | (.error e, evs) =>
      (.ok (.exceptionResponse server { kind := e, server := some server }), evs)

end Pkg

namespace Legacy

/-- `SimpleClient` of the legacy top-level `thrift_client.py`: same as
the package one but with no `name` attribute. -/
structure SimpleClient where
  protocol : String
  host : String
  port : Int
  frame : Bool
  timeout : Int
  hasFile : Bool
  enabled : Bool
  deriving DecidableEq, Repr

/-- Legacy `SimpleClient.__init__` (no `name` parameter). -/
def SimpleClient.init (protocol : String) (host : Option String) (port : Option Int)
    (frame : Bool) (log_filename : Option String) (timeout : Option Int) :
    Except PyErrKind SimpleClient :=
  match canonicalize_hostport host port with
  | .error e => .error e
  | .ok (h, p) =>
    .ok { protocol := protocol
          host := h
          port := p
          frame := frame
          timeout := match timeout with
            | some t => if t = 0 then DEFAULT_TIMEOUT else t
            | none => DEFAULT_TIMEOUT
          hasFile := log_filename.isSome
          enabled := true }

/-- Legacy `SimpleClient.__eq__`: equality on `(host, port, protocol)`. -/
def SimpleClient.pyEq (a b : SimpleClient) : Bool :=
  a.host = b.host && a.port = b.port && a.protocol = b.protocol

/-- The closure returned by the legacy `SimpleClient.__getattr__(k)`;
its body is identical to the package one. -/
def SimpleClient.call (env : Env) (self : SimpleClient) (k : String)
    (args : List Val) (kwargs : List (String × Val)) :
    Except PyErrKind Val × List Event :=
  if !self.enabled then (.error .clientDisabledError, [])
  else
    match (if self.hasFile then env.logOpenExc self.host self.port else none) with
    | some e => (.error (.remote e), [.logOpen self.host self.port])
    | none =>
      let logEvs :=
        if self.hasFile then
          [Event.logOpen self.host self.port,
           Event.logWrite self.host self.port (env.logWriteFails self.host self.port)]
        else []
      match env.net self.host self.port k args kwargs with
      | .ok v => (.ok v, logEvs ++ [.netCall self.host self.port k])
      | .error e => (.error (.remote e), logEvs ++ [.netCall self.host self.port k])

/-- A Python exception with the `server` attribute the legacy
`HashClient` attaches before re-raising. -/
structure PyErr where
  kind : PyErrKind
  server : Option SimpleClient := none
  deriving DecidableEq, Repr

/-- Legacy `ReplicatedClient` state: no name index, just the list. -/
structure ReplicatedClient where
  protocol : String
  frame : Bool
  timeout : Option Int
  servers : List SimpleClient
  deriving DecidableEq, Repr

/-- Legacy `ReplicatedClient.__init__`: note `self.timeout = None` —
the `timeout` argument is discarded. -/
def ReplicatedClient.init (protocol : String) (frame : Bool) (timeout : Option Int) :
    ReplicatedClient :=
  { protocol := protocol
    frame := frame
    timeout := none
    servers := [] }

/-- Legacy `ReplicatedClient.add_server(host, port, server)`. -/
def ReplicatedClient.add_server (self : ReplicatedClient) (host : Option String)
    (port : Option Int) (server : Option SimpleClient) :
    ReplicatedClient × Option PyErrKind :=
  let mk : Except PyErrKind SimpleClient :=
    match server with
    | some s => .ok s
    | none => SimpleClient.init self.protocol host port self.frame none self.timeout
  match mk with
  | .error e => (self, some e)
  | .ok server => ({ self with servers := self.servers ++ [server] }, none)

/-- Legacy `ReplicatedClient.remove_server(server, host, port)`:
by reference it is `list.remove` (first `__eq__` match, `ValueError`
when absent); by `(host, port)` it keeps the non-matching servers. -/
def ReplicatedClient.remove_server (self : ReplicatedClient) (server : Option SimpleClient)
    (host : Option String) (port : Option Int) : ReplicatedClient × Option PyErrKind :=
  match server with
  | some s =>
    match removeFirst (fun x => x.pyEq s) self.servers with
    | none => (self, some .valueError)
    | some servers1 => ({ self with servers := servers1 }, none)
  | none =>
    match canonicalize_hostport host port with
    | .error e => (self, some e)
    | .ok (h, p) =>
      ({ self with servers := self.servers.filter (fun s => !(h = s.host && p = s.port)) },
       none)

/-- Legacy `HashClient` state.  Unlike the package version its
`__init__` keeps the `timeout` argument. -/
structure HashClient where
  servers : List SimpleClient
  protocol : String
  frame : Bool
  timeout : Option Int
  all : ReplicatedClient
  hashfns : List (String × (List Val → List (String × Val) → HashKey))

/-- Legacy `HashClient.__init__`. -/
def HashClient.init (protocol : String) (frame : Bool) (timeout : Option Int) : HashClient :=
  { servers := []
    protocol := protocol
    frame := frame
    timeout := timeout
    all := ReplicatedClient.init protocol frame timeout
    hashfns := [] }

/-- The hash key computed by the legacy `HashClient.__getattr__`. -/
def HashClient.hashkeyFor (self : HashClient) (k : String) (args : List Val)
    (kwargs : List (String × Val)) : HashKey :=
  match dictGet self.hashfns k with
  | some fn => fn args kwargs
  | none => defaultHashKey args kwargs

/-- The server picked by the legacy `HashClient.__getattr__`:
`self.servers[hash(hashkey) % len(self.servers)]`; `none` when the pool
is empty (`% 0` raises `ZeroDivisionError`). -/
def HashClient.selectedServer (pyHash : HashKey → Int) (self : HashClient) (k : String)
    (args : List Val) (kwargs : List (String × Val)) : Option SimpleClient :=
  let hashval := pyHash (self.hashkeyFor k args kwargs)
  if h : self.servers.length = 0 then none
  else some (self.servers.get ⟨pickIdx hashval self.servers.length,
    pickIdx_lt hashval h⟩)

/-- The closure returned by the legacy `HashClient.__getattr__`: pick
the server, invoke it, and on success return the RAW return value; on
an exception set `e.server = server` and RE-RAISE it. -/
def HashClient.call (env : Env) (pyHash : HashKey → Int) (self : HashClient) (k : String)
    (args : List Val) (kwargs : List (String × Val)) :
    Except PyErr Val × List Event :=
  match HashClient.selectedServer pyHash self k args kwargs with
  | none => (.error { kind := .zeroDivisionError }, [])
  | some server =>
    match SimpleClient.call env server k args kwargs with
    | (.ok ret, evs) => (.ok ret, evs)
    | (.error e, evs) => (.error { kind := e, server := some server }, evs)

end Legacy

/-! ### Concrete fixtures used by witnesses and counterexamples -/

/-- An environment whose network adapter always succeeds with `7`. -/
def okEnv : Env :=
  { net := fun _ _ _ _ _ => .ok 7
    logOpenExc := fun _ _ => none
    logWriteFails := fun _ _ => false }

/-- An environment whose network adapter always raises `"boom"`. -/
def failEnv : Env :=
  { net := fun _ _ _ _ _ => .error "boom"
    logOpenExc := fun _ _ => none
    logWriteFails := fun _ _ => false }

/-- Like `okEnv`, but opening the log-file transport raises `"openboom"`. -/
def openFailEnv : Env :=
  { net := fun _ _ _ _ _ => .ok 7
    logOpenExc := fun _ _ => some "openboom"
    logWriteFails := fun _ _ => false }

/-- Like `okEnv`, but the log-file write raises (and is swallowed). -/
def writeFailEnv : Env :=
  { net := fun _ _ _ _ _ => .ok 7
    logOpenExc := fun _ _ => none
    logWriteFails := fun _ _ => true }

/-- A concrete stand-in for Python's builtin `hash`. -/
def pyHash0 : HashKey → Int :=
  fun key => key.length

/-- A package pool holding one server at `h:1` (derived name `Proto-0`),
built through `HashClient.__init__` and `HashClient.add_server`. -/
def hcP1 : Pkg.HashClient :=
  ((Pkg.HashClient.init "Proto" false none).add_server (some "h") (some 1) none 0).1

/-- The server that `hcP1` holds. -/
def sA : Pkg.SimpleClient :=
  { protocol := "Proto"
    host := "h"
    port := 1
    frame := false
    timeout := DEFAULT_TIMEOUT
    hasFile := false
    enabled := true
    name := "Proto-0" }

/-- A legacy server at `h:1`. -/
def sL : Legacy.SimpleClient :=
  { protocol := "Proto"
    host := "h"
    port := 1
    frame := false
    timeout := DEFAULT_TIMEOUT
    hasFile := false
    enabled := true }

/-- A legacy hash pool holding only `sL`. -/
def hcL1 : Legacy.HashClient :=
  { servers := [sL]
    protocol := "Proto"
    frame := false
    timeout := none
    all := { protocol := "Proto", frame := false, timeout := none, servers := [sL] }
    hashfns := [] }

/-- A package endpoint at `h:1` with a log sink attached. -/
def sLog : Pkg.SimpleClient :=
  { protocol := "Proto"
    host := "h"
    port := 1
    frame := false
    timeout := DEFAULT_TIMEOUT
    hasFile := true
    enabled := true
    name := "sLog" }

/-! ### Claim theorems -/

/-- C10: the timeout passed to the pool constructors is discarded — the
pool stores `None` (`Pkg.MultiClient.__init__`, inherited by the
package `ReplicatedClient` and `HashClient`, and the legacy
`ReplicatedClient.__init__`) — so every endpoint constructed through
`add_server(host, port)` receives the fixed default timeout `60001`. -/
theorem C10_timeout_discarded :
    (∀ p f t, (Pkg.MultiClient.init p f t).timeout = none) ∧
    (∀ p f t, (Legacy.ReplicatedClient.init p f t).timeout = none) ∧
    (∀ p f t host port name idN, ∃ s,
      ((Pkg.MultiClient.init p f t).add_server (some host) (some port) none name idN).2 =
        .ok s ∧
      s.timeout = DEFAULT_TIMEOUT) := by
  refine ⟨fun p f t => rfl, fun p f t => rfl, fun p f t host port name idN => ?_⟩
  cases name with
  | none => exact ⟨_, rfl, rfl⟩
  | some n => exact ⟨_, rfl, rfl⟩

/-- C6: a hash-routed call on a pool with zero endpoints fails — with
the `ZeroDivisionError` that `hashval % len(self.servers)` raises on an
empty pool, which is the error the spec names `EmptyPoolError` — and
performs no I/O at all (empty event trace, so no endpoint invoke is
attempted).  Holds for both the package and the legacy `HashClient`. -/
theorem C6_empty_pool :
    (∀ env pyHash (self : Pkg.HashClient) k args kwargs,
      self.base.servers = [] →
      Pkg.HashClient.call env pyHash self k args kwargs =
        (.error { kind := .zeroDivisionError }, [])) ∧
    (∀ env pyHash (self : Legacy.HashClient) k args kwargs,
      self.servers = [] →
      Legacy.HashClient.call env pyHash self k args kwargs =
        (.error { kind := .zeroDivisionError }, [])) := by
  constructor
  · intro env pyHash self k args kwargs h
    simp [Pkg.HashClient.call, Pkg.HashClient.selectedServer, h]
  · intro env pyHash self k args kwargs h
    simp [Legacy.HashClient.call, Legacy.HashClient.selectedServer, h]

/-- Witness for C6 at a concrete empty pool of each module. -/
theorem C6_empty_pool_witness :
    Pkg.HashClient.call okEnv pyHash0 (Pkg.HashClient.init "Proto" false none) "m" [] [] =
      (.error { kind := .zeroDivisionError }, []) ∧
    Legacy.HashClient.call okEnv pyHash0 (Legacy.HashClient.init "Proto" false none) "m" [] [] =
      (.error { kind := .zeroDivisionError }, []) :=
  ⟨C6_empty_pool.1 okEnv pyHash0 _ "m" [] [] rfl,
   C6_empty_pool.2 okEnv pyHash0 _ "m" [] [] rfl⟩

/-- C9: a disabled endpoint fails with `ClientDisabledError` before any
I/O (empty event trace, so no connection is opened); `enable()` makes
`is_enabled()` return true; and an enabled endpoint's invoke proceeds
to the network call (provided its optional log sink, if attached,
opens — see C7 for the log-open caveat). -/
theorem C9_disabled_endpoint :
    (∀ env (self : Pkg.SimpleClient) k args kwargs,
      self.enabled = false →
      Pkg.SimpleClient.call env self k args kwargs =
        (.error .clientDisabledError, [])) ∧
    (∀ self : Pkg.SimpleClient, (self.enable).is_enabled = true) ∧
    (∀ env (self : Pkg.SimpleClient) k args kwargs,
      (self.hasFile = true → env.logOpenExc self.host self.port = none) →
      Event.netCall self.host self.port k ∈
        (Pkg.SimpleClient.call env (self.enable) k args kwargs).2) := by
  refine ⟨?_, ?_, ?_⟩
  · intro env self k args kwargs h
    simp [Pkg.SimpleClient.call, Pkg.SimpleClient.is_enabled, h]
  · intro self
    rfl
  · intro env self k args kwargs hlog
    by_cases hf : self.hasFile
    · have hopen := hlog hf
      cases hnet : env.net self.host self.port k args kwargs <;>
        simp [Pkg.SimpleClient.call, Pkg.SimpleClient.enable, Pkg.SimpleClient.is_enabled,
          hf, hopen, hnet]
    · cases hnet : env.net self.host self.port k args kwargs <;>
        simp [Pkg.SimpleClient.call, Pkg.SimpleClient.enable, Pkg.SimpleClient.is_enabled,
          hf, hnet]

/-- Witness for C9: a concrete disabled endpoint fails without I/O, and
after `enable()` the same endpoint reports enabled and its call reaches
the network. -/
theorem C9_disabled_endpoint_witness :
    Pkg.SimpleClient.call okEnv (sA.disable) "m" [] [] =
      (.error .clientDisabledError, []) ∧
    ((sA.disable).enable).is_enabled = true ∧
    Event.netCall "h" 1 "m" ∈ (Pkg.SimpleClient.call okEnv ((sA.disable).enable) "m" [] []).2 :=
  ⟨C9_disabled_endpoint.1 okEnv (sA.disable) "m" [] [] rfl,
   C9_disabled_endpoint.2.1 (sA.disable),
   C9_disabled_endpoint.2.2 okEnv (sA.disable) "m" [] [] (fun h => by cases h)⟩

/-- C7 counterexample: a failure while OPENING the log transport is not
swallowed — `self._connect_file()` runs outside the `try/except` — so
it propagates to the caller and the real network call is never
attempted (the trace holds only the failed log-open, no `netCall`). -/
theorem C7_cex :
    Pkg.SimpleClient.call openFailEnv sLog "m" [] [] =
      (.error (.remote "openboom"), [Event.logOpen "h" 1]) := by
  rfl

/-- C7 amended: the outcome of an invoke is independent of whether the
log WRITE fails (write failures are swallowed); with a working sink the
call writes to the sink before the network call and reaches the network
regardless of the write outcome; but a failure OPENING the log
transport propagates to the caller and prevents the network call. -/
theorem C7_log_sink :
    (∀ (env1 env2 : Env) (self : Pkg.SimpleClient) k args kwargs,
      env1.net = env2.net → env1.logOpenExc = env2.logOpenExc →
      (Pkg.SimpleClient.call env1 self k args kwargs).1 =
      (Pkg.SimpleClient.call env2 self k args kwargs).1) ∧
    (∀ env (self : Pkg.SimpleClient) k args kwargs,
      self.enabled = true → self.hasFile = true →
      env.logOpenExc self.host self.port = none →
      (Pkg.SimpleClient.call env self k args kwargs).2 =
        [Event.logOpen self.host self.port,
         Event.logWrite self.host self.port (env.logWriteFails self.host self.port),
         Event.netCall self.host self.port k]) ∧
    (∀ env (self : Pkg.SimpleClient) k args kwargs e,
      self.enabled = true → self.hasFile = true →
      env.logOpenExc self.host self.port = some e →
      Pkg.SimpleClient.call env self k args kwargs =
        (.error (.remote e), [Event.logOpen self.host self.port])) := by
  refine ⟨?_, ?_, ?_⟩
  · intro env1 env2 self k args kwargs hnet hopen
    by_cases he : self.enabled
    · by_cases hf : self.hasFile
      · cases hoe : env2.logOpenExc self.host self.port <;>
          cases hn : env2.net self.host self.port k args kwargs <;>
            simp [Pkg.SimpleClient.call, Pkg.SimpleClient.is_enabled, he, hf,
              hopen, hnet, hoe, hn]
      · cases hn : env2.net self.host self.port k args kwargs <;>
          simp [Pkg.SimpleClient.call, Pkg.SimpleClient.is_enabled, he, hf, hopen, hnet, hn]
    · simp [Pkg.SimpleClient.call, Pkg.SimpleClient.is_enabled, he]
  · intro env self k args kwargs he hf hopen
    cases hn : env.net self.host self.port k args kwargs <;>
      simp [Pkg.SimpleClient.call, Pkg.SimpleClient.is_enabled, he, hf, hopen, hn]
  · intro env self k args kwargs e he hf hopen
    simp [Pkg.SimpleClient.call, Pkg.SimpleClient.is_enabled, he, hf, hopen]

/-- Witness for C7 (amended) at a concrete sink-attached endpoint:
whether the write fails or not, the result is the same, the trace shows
the write before the network call, and with a failing log-open the
error propagates with no network call. -/
theorem C7_log_sink_witness :
    (Pkg.SimpleClient.call writeFailEnv sLog "m" [] []).1 =
      (Pkg.SimpleClient.call okEnv sLog "m" [] []).1 ∧
    (Pkg.SimpleClient.call writeFailEnv sLog "m" [] []).2 =
      [Event.logOpen "h" 1, Event.logWrite "h" 1 true, Event.netCall "h" 1 "m"] ∧
    Pkg.SimpleClient.call openFailEnv sLog "m" [] [] =
      (.error (.remote "openboom"), [Event.logOpen "h" 1]) :=
  ⟨C7_log_sink.1 writeFailEnv okEnv sLog "m" [] [] rfl rfl,
   C7_log_sink.2.1 writeFailEnv sLog "m" [] [] rfl rfl rfl,
   C7_log_sink.2.2 openFailEnv sLog "m" [] [] "openboom" rfl rfl rfl⟩

/-- C1 counterexample: in the package module the hash router does NOT
re-raise the selected endpoint's error — at this concrete input the
call RETURNS a `ThriftExceptionResponse` (a wrapped failure result)
instead of propagating the exception. -/
theorem C1_cex :
    (Pkg.HashClient.call failEnv pyHash0 hcP1 "m" [] []).1 =
      .ok (.exceptionResponse sA { kind := .remote "boom", server := some sA }) := by
  rfl

/-- C1 amended: when the selected endpoint's invoke raises, the LEGACY
hash client re-raises the error to the caller annotated with the
endpoint (`e.server = server; raise e`), while the PACKAGE hash client
instead returns a `ThriftExceptionResponse` wrapping the error (also
annotated with the endpoint); only its `.value()` re-raises. -/
theorem C1_hash_error_path :
    (∀ env pyHash (self : Legacy.HashClient) k args kwargs s ek evs,
      Legacy.HashClient.selectedServer pyHash self k args kwargs = some s →
      Legacy.SimpleClient.call env s k args kwargs = (.error ek, evs) →
      Legacy.HashClient.call env pyHash self k args kwargs =
        (.error { kind := ek, server := some s }, evs)) ∧
    (∀ env pyHash (self : Pkg.HashClient) k args kwargs s ek evs,
      Pkg.HashClient.selectedServer pyHash self k args kwargs = some s →
      Pkg.SimpleClient.call env s k args kwargs = (.error ek, evs) →
      Pkg.HashClient.call env pyHash self k args kwargs =
        (.ok (.exceptionResponse s { kind := ek, server := some s }), evs)) := by
  constructor
  · intro env pyHash self k args kwargs s ek evs hsel hcall
    simp [Legacy.HashClient.call, hsel, hcall]
  · intro env pyHash self k args kwargs s ek evs hsel hcall
    simp [Pkg.HashClient.call, hsel, hcall]

/-- Witness for C1 (amended) on one-server pools whose endpoint's
network call raises `"boom"`. -/
theorem C1_hash_error_path_witness :
    Legacy.HashClient.call failEnv pyHash0 hcL1 "m" [] [] =
      (.error { kind := .remote "boom", server := some sL }, [Event.netCall "h" 1 "m"]) ∧
    Pkg.HashClient.call failEnv pyHash0 hcP1 "m" [] [] =
      (.ok (.exceptionResponse sA { kind := .remote "boom", server := some sA }),
       [Event.netCall "h" 1 "m"]) :=
  ⟨C1_hash_error_path.1 failEnv pyHash0 hcL1 "m" [] [] sL (.remote "boom")
      [Event.netCall "h" 1 "m"] rfl rfl,
   C1_hash_error_path.2 failEnv pyHash0 hcP1 "m" [] [] sA (.remote "boom")
      [Event.netCall "h" 1 "m"] (by decide) rfl⟩

/-- C2: evaluation of the package code at the failing input.  The pool
`hcP1` holds the endpoint `h:1` in both its primary and its `all`
sub-pool, yet `remove_server(host='h', port=1)` removes nothing and
raises `KeyError`: the positional delegation
`MultiClient.remove_server(self, server, host, port)` binds `host` to
the `name` parameter, so the code looks up a server NAMED `'h'`. -/
theorem C2_failing_eval :
    (Pkg.HashClient.remove_server hcP1 none (some "h") (some 1)).2 = some .keyError ∧
    (Pkg.HashClient.remove_server hcP1 none (some "h") (some 1)).1.base = hcP1.base ∧
    (Pkg.HashClient.remove_server hcP1 none (some "h") (some 1)).1.all = hcP1.all ∧
    hcP1.base.servers = [sA] ∧ hcP1.all.servers = [sA] := by
  refine ⟨rfl, rfl, rfl, ?_, ?_⟩ <;> decide

/-- A broadcast-pool member at `h1:1`. -/
def sB1 : Pkg.SimpleClient :=
  { protocol := "Proto"
    host := "h1"
    port := 1
    frame := false
    timeout := DEFAULT_TIMEOUT
    hasFile := false
    enabled := true
    name := "b1" }

/-- A broadcast-pool member at `h2:2`. -/
def sB2 : Pkg.SimpleClient :=
  { protocol := "Proto"
    host := "h2"
    port := 2
    frame := false
    timeout := DEFAULT_TIMEOUT
    hasFile := false
    enabled := true
    name := "b2" }

/-- A third pool member at `h3:3`. -/
def sC3 : Pkg.SimpleClient :=
  { protocol := "Proto"
    host := "h3"
    port := 3
    frame := false
    timeout := DEFAULT_TIMEOUT
    hasFile := false
    enabled := true
    name := "c3" }

/-- An environment where only host `h1` answers; every other host raises. -/
def mixEnv : Env :=
  { net := fun h _ _ _ _ => if h = "h1" then .ok 5 else .error "boom"
    logOpenExc := fun _ _ => none
    logWriteFails := fun _ _ => false }

/-- The responses of a broadcast call are exactly the per-server
outcomes, in pool order. -/
theorem replicatedCall_fst (env : Env) (k : String) (args : List Val)
    (kwargs : List (String × Val)) :
    ∀ servers, (Pkg.replicatedCall env k args kwargs servers).1 =
      servers.map (fun server =>
        match (Pkg.SimpleClient.call env server k args kwargs).1 with
        | .ok v => Pkg.ThriftResp.response server v
        | .error e => Pkg.ThriftResp.exceptionResponse server { kind := e })
  | [] => rfl
  | server :: rest => by
    simp [Pkg.replicatedCall, replicatedCall_fst env k args kwargs rest]

/-- C3: a broadcast call on a pool of N endpoints returns exactly N
results, the i-th tagged with the i-th endpoint in pool order; an
endpoint whose invoke raises yields a wrapped
`ThriftExceptionResponse` holding that error and any other yields a
`ThriftResponse` holding its return value; the call is total (no
per-endpoint error propagates) and each slot depends only on its own
endpoint, so no failure halts the processing of later endpoints. -/
theorem C3_broadcast (env : Env) (k : String) (args : List Val)
    (kwargs : List (String × Val)) (servers : List Pkg.SimpleClient) :
    (Pkg.replicatedCall env k args kwargs servers).1.length = servers.length ∧
    ∀ i (hi : i < servers.length),
      (Pkg.replicatedCall env k args kwargs servers).1[i]? =
        some (match (Pkg.SimpleClient.call env servers[i] k args kwargs).1 with
          | .ok v => Pkg.ThriftResp.response servers[i] v
          | .error e => Pkg.ThriftResp.exceptionResponse servers[i] { kind := e }) := by
  constructor
  · rw [replicatedCall_fst]
    exact List.length_map _ _
  · intro i hi
    rw [replicatedCall_fst, List.getElem?_map, List.getElem?_eq_getElem hi]
    rfl

/-- Witness for C3 on a two-endpoint pool where exactly the second
endpoint raises: two results, one success and one wrapped failure, in
pool order. -/
theorem C3_broadcast_witness :
    (Pkg.replicatedCall mixEnv "m" [] [] [sB1, sB2]).1.length = 2 ∧
    (Pkg.replicatedCall mixEnv "m" [] [] [sB1, sB2]).1[0]? =
      some (Pkg.ThriftResp.response sB1 5) ∧
    (Pkg.replicatedCall mixEnv "m" [] [] [sB1, sB2]).1[1]? =
      some (Pkg.ThriftResp.exceptionResponse sB2 { kind := .remote "boom" }) :=
  ⟨(C3_broadcast mixEnv "m" [] [] [sB1, sB2]).1,
   (C3_broadcast mixEnv "m" [] [] [sB1, sB2]).2 0 (by decide),
   (C3_broadcast mixEnv "m" [] [] [sB1, sB2]).2 1 (by decide)⟩

/-- A package pool holding one server explicitly named `n`. -/
def mcN : Pkg.MultiClient :=
  ((Pkg.MultiClient.init "Proto" false none).add_server
    (some "h") (some 1) none (some "n") 0).1

/-- An endpoint reference whose own name duplicates `mcN`'s entry `n`. -/
def sDup : Pkg.SimpleClient :=
  { protocol := "Proto"
    host := "h2"
    port := 2
    frame := false
    timeout := DEFAULT_TIMEOUT
    hasFile := false
    enabled := true
    name := "n" }

/-- C4 counterexample: the pool `mcN` already indexes the name `n`, and
`sDup` is an existing endpoint reference named `n`, yet
`add_server(server=sDup)` raises no duplicate-name error — it succeeds
and silently overwrites the index entry (the duplicate check tests the
`name` ARGUMENT, which is `None` here, not `server.name`). -/
theorem C4_cex :
    dictContains mcN.server_dict "n" = true ∧
    sDup.name = "n" ∧
    (mcN.add_server none none (some sDup) none 1).2 = .ok sDup ∧
    (mcN.add_server none none (some sDup) none 1).1.server_dict = [("n", sDup)] := by
  refine ⟨by decide, by decide, rfl, by decide⟩

/-- C4 amended: `add_server` raises the duplicate-name `ValueError`
exactly when the explicit `name` argument is already a key of the
index (so in particular on the construct-from-host/port/name path);
when an existing endpoint reference is passed without a `name`
argument, no duplicate check is made against the endpoint's own name
and the add always succeeds, overwriting any index entry of that name. -/
theorem C4_duplicate_name :
    (∀ (mc : Pkg.MultiClient) (h : String) (p : Int) (n : String) idN,
      dictContains mc.server_dict n = true →
      (mc.add_server (some h) (some p) none (some n) idN).2 = .error .valueError) ∧
    (∀ (mc : Pkg.MultiClient) (s : Pkg.SimpleClient) idN,
      (mc.add_server none none (some s) none idN).2 = .ok s) := by
  constructor
  · intro mc h p n idN hdup
    simp [Pkg.MultiClient.add_server, Pkg.SimpleClient.init, canonicalize_hostport, hdup]
  · intro mc s idN
    simp [Pkg.MultiClient.add_server]

/-- Witness for C4 (amended): on `mcN`, adding by host/port with the
duplicate name `n` raises, while adding the reference `sDup` (whose own
name is the duplicate) succeeds. -/
theorem C4_duplicate_name_witness :
    (mcN.add_server (some "h2") (some 2) none (some "n") 1).2 = .error .valueError ∧
    (mcN.add_server none none (some sDup) none 1).2 = .ok sDup :=
  ⟨C4_duplicate_name.1 mcN "h2" 2 "n" 1 (by decide),
   C4_duplicate_name.2 mcN sDup 1⟩

/-- The Pool invariant claimed by the spec: the ordered endpoint
sequence and the name index hold exactly the same endpoints. -/
def Pkg.MultiClient.wf (self : Pkg.MultiClient) : Prop :=
  (self.server_dict.map Prod.snd).Perm self.servers

instance (self : Pkg.MultiClient) : Decidable self.wf :=
  inferInstanceAs (Decidable (List.Perm _ _))

/-- `SimpleClient.__eq__` is reflexive. -/
theorem Pkg.SimpleClient.pyEq_refl (a : Pkg.SimpleClient) : a.pyEq a = true := by
  simp [Pkg.SimpleClient.pyEq]

/-- The canonical pool shape that successful fresh-name adds build:
the index is exactly the name-keyed image of the sequence, names are
unique, and no two members are `__eq__`-equal (one endpoint per
`(host, port, protocol)` destination). -/
def Pkg.MultiClient.consistent (self : Pkg.MultiClient) : Prop :=
  self.server_dict = self.servers.map (fun s => (s.name, s)) ∧
  (self.servers.map (fun s => s.name)).Nodup ∧
  self.servers.Pairwise (fun a b => a.pyEq b = false)

instance (self : Pkg.MultiClient) : Decidable self.consistent :=
  inferInstanceAs (Decidable (_ ∧ _ ∧ _))

/-- A consistent pool satisfies the sequence-index invariant. -/
theorem Pkg.MultiClient.consistent.to_wf {self : Pkg.MultiClient}
    (hc : self.consistent) : self.wf := by
  unfold Pkg.MultiClient.wf
  rw [hc.1, List.map_map]
  have hid : (Prod.snd ∘ fun s : Pkg.SimpleClient => (s.name, s)) = id := rfl
  rw [hid, List.map_id]

/-- A consistent pool holds no duplicate endpoint records. -/
theorem Pkg.MultiClient.consistent.servers_nodup {self : Pkg.MultiClient}
    (hc : self.consistent) : self.servers.Nodup :=
  hc.2.2.imp (fun {a b} (hab : a.pyEq b = false) (heq : a = b) => by
    rw [heq, Pkg.SimpleClient.pyEq_refl b] at hab
    cases hab)

/-- A hit in the canonical name index is a pool member. -/
theorem dictGet_map_name_mem :
    ∀ (l : List Pkg.SimpleClient) (n : String) (s : Pkg.SimpleClient),
      dictGet (l.map (fun x => (x.name, x))) n = some s → s ∈ l
  | [], n, s => by simp [dictGet]
  | x :: xs, n, s => by
    intro h
    rw [List.map_cons] at h
    by_cases hx : x.name = n
    · have hhead : dictGet ((x.name, x) :: xs.map (fun y => (y.name, y))) n = some x := by
        simp [dictGet, List.find?_cons, hx]
      rw [hhead] at h
      injection h with h2
      exact List.mem_cons.mpr (Or.inl h2.symm)
    · have htail : dictGet ((x.name, x) :: xs.map (fun y => (y.name, y))) n =
          dictGet (xs.map (fun y => (y.name, y))) n := by
        simp [dictGet, List.find?_cons, hx]
      rw [htail] at h
      exact List.mem_cons_of_mem x (dictGet_map_name_mem xs n s h)

/-- What `list.remove(server)` followed by `del dict[server.name]` does
on the canonical pool shape when `server` is a member: the first
`__eq__` match is the member itself, the index loses exactly its
entry, canonicity is preserved, and every other member survives. -/
theorem removeFirst_pyEq_spec :
    ∀ (l : List Pkg.SimpleClient) (s : Pkg.SimpleClient),
      s ∈ l →
      (l.map (fun x => x.name)).Nodup →
      l.Pairwise (fun a b => a.pyEq b = false) →
      ∃ l1,
        removeFirst (fun x => x.pyEq s) l = some l1 ∧
        dictDelete (l.map (fun x => (x.name, x))) s.name =
          l1.map (fun x => (x.name, x)) ∧
        dictContains (l.map (fun x => (x.name, x))) s.name = true ∧
        (l1.map (fun x => x.name)).Nodup ∧
        l1.Pairwise (fun a b => a.pyEq b = false) ∧
        (∀ y ∈ l1, y ∈ l) ∧
        (∀ y ∈ l, y ≠ s → y ∈ l1) := by
  intro l
  induction l with
  | nil => intro s hs _ _; cases hs
  | cons x xs ih =>
    intro s hs hnd hpw
    rw [List.map_cons, List.nodup_cons] at hnd
    rw [List.pairwise_cons] at hpw
    by_cases hx : x.pyEq s = true
    · have hsx : s = x := by
        rcases List.mem_cons.mp hs with h | h
        · exact h
        · exact absurd hx (by simp [hpw.1 s h])
      subst hsx
      refine ⟨xs, ?_, ?_, ?_, hnd.2, hpw.2, ?_, ?_⟩
      · simp [removeFirst, hx]
      · rw [List.map_cons]
        unfold dictDelete
        rw [List.filter_cons]
        have h1 : ∀ a ∈ xs.map (fun z => (z.name, z)),
            (fun p : String × Pkg.SimpleClient => (p.1 ≠ s.name : Bool)) a = true := by
          intro a ha
          obtain ⟨y, hy, rfl⟩ := List.mem_map.mp ha
          simp only [decide_eq_true_eq]
          exact fun hEq => hnd.1 (hEq ▸ List.mem_map_of_mem (fun z => z.name) hy)
        rw [List.filter_eq_self.mpr h1]
        simp
      · simp [dictContains]
      · exact fun y hy => List.mem_cons_of_mem _ hy
      · intro y hy hne
        rcases List.mem_cons.mp hy with h | h
        · exact absurd h hne
        · exact h
    · have hxF : x.pyEq s = false := by
        cases hxx : x.pyEq s
        · rfl
        · exact absurd hxx hx
      have hsx : s ≠ x := by
        intro hEq
        rw [hEq, Pkg.SimpleClient.pyEq_refl x] at hxF
        cases hxF
      have hs' : s ∈ xs := by
        rcases List.mem_cons.mp hs with h | h
        · exact absurd h hsx
        · exact h
      obtain ⟨l1, hrf, hdel, hcont, hnd1, hpw1, hsub, hkeep⟩ := ih s hs' hnd.2 hpw.2
      have hxname : ¬ x.name = s.name := fun hEq =>
        hnd.1 (hEq ▸ List.mem_map_of_mem (fun z => z.name) hs')
      refine ⟨x :: l1, ?_, ?_, ?_, ?_, ?_, ?_, ?_⟩
      · simp [removeFirst, hxF, hrf]
      · rw [List.map_cons, List.map_cons]
        unfold dictDelete at hdel ⊢
        rw [List.filter_cons]
        simp only [ne_eq, decide_not] at hdel
        simp [hxname, hdel]
      · simp only [dictContains] at hcont
        simp [dictContains, List.any_cons, hcont]
      · rw [List.map_cons, List.nodup_cons]
        refine ⟨fun hmem => ?_, hnd1⟩
        obtain ⟨y, hy, hyname⟩ := List.mem_map.mp hmem
        exact hnd.1 (hyname ▸ List.mem_map_of_mem (fun z => z.name) (hsub y hy))
      · rw [List.pairwise_cons]
        exact ⟨fun y hy => hpw.1 y (hsub y hy), hpw1⟩
      · intro y hy
        rcases List.mem_cons.mp hy with h | h
        · exact h ▸ List.mem_cons_self x xs
        · exact List.mem_cons_of_mem x (hsub y h)
      · intro y hy hne
        rcases List.mem_cons.mp hy with h | h
        · exact h ▸ List.mem_cons_self x l1
        · exact List.mem_cons_of_mem x (hkeep y h hne)

/-- Removing a pool member by reference on a consistent pool succeeds,
leaves a consistent pool, and keeps every other member. -/
theorem removeByRef_consistent (mc : Pkg.MultiClient) (s : Pkg.SimpleClient)
    (hc : mc.consistent) (hs : s ∈ mc.servers) :
    (mc.removeByRef s).2 = none ∧
    (mc.removeByRef s).1.consistent ∧
    ∀ y ∈ mc.servers, y ≠ s → y ∈ (mc.removeByRef s).1.servers := by
  obtain ⟨hdict, hnd, hpw⟩ := hc
  obtain ⟨l1, hrf, hdel, hcont, hnd1, hpw1, hsub, hkeep⟩ :=
    removeFirst_pyEq_spec mc.servers s hs hnd hpw
  have hstep : mc.removeByRef s =
      ({ mc with servers := l1, server_dict := l1.map (fun x => (x.name, x)) }, none) := by
    simp only [Pkg.MultiClient.removeByRef, hrf, hdict, hcont, if_true, hdel]
  rw [hstep]
  exact ⟨rfl, ⟨rfl, hnd1, hpw1⟩, fun y hy hne => hkeep y hy hne⟩

/-- The host/port removal loop on a consistent pool, fed distinct pool
members, leaves a consistent pool. -/
theorem removeAll_consistent :
    ∀ (l : List Pkg.SimpleClient) (mc : Pkg.MultiClient),
      mc.consistent → l.Nodup → (∀ y ∈ l, y ∈ mc.servers) →
      (mc.removeAll l).1.consistent
  | [], _, hc, _, _ => hc
  | s :: rest, mc, hc, hnd, hmem => by
    obtain ⟨h2none, h2cons, h2keep⟩ :=
      removeByRef_consistent mc s hc (hmem s (List.mem_cons_self s rest))
    rcases hrb : mc.removeByRef s with ⟨mc1, e⟩
    rw [hrb] at h2none h2cons h2keep
    have he : e = none := h2none
    subst he
    have hred : mc.removeAll (s :: rest) = mc1.removeAll rest := by
      simp [Pkg.MultiClient.removeAll, hrb]
    rw [hred]
    refine removeAll_consistent rest mc1 h2cons (List.nodup_cons.mp hnd).2 ?_
    intro y hy
    exact h2keep y (hmem y (List.mem_cons_of_mem s hy))
      (fun hys => (List.nodup_cons.mp hnd).1 (hys ▸ hy))

/-- C5 counterexample: `mcN` satisfies the sequence-index invariant,
but the state left behind by a FAILED add (duplicate name `n`) does
not: the endpoint was appended to the sequence before the duplicate
check fired, and no index entry was made for it. -/
theorem C5_cex :
    Pkg.MultiClient.wf mcN ∧
    ¬ Pkg.MultiClient.wf (mcN.add_server (some "h2") (some 2) none (some "n") 1).1 := by
  constructor <;> decide

/-- C5 amended: a SUCCESSFUL `add_server` by host/port with a fresh
explicit name preserves the sequence-index invariant, and on pools in
the canonical shape this API builds (`consistent`: index = name-keyed
image of the sequence, unique names, one endpoint per destination)
every removal — by member reference, by name, or by `(host, port)` —
preserves it too, failing lookups leaving the pool untouched; but a
FAILED duplicate-name add does not preserve it: it always leaves the
appended endpoint in the sequence with no matching index entry. -/
theorem C5_pool_invariant :
    (∀ (mc : Pkg.MultiClient) (h : String) (p : Int) (n : String) idN,
      mc.wf → n ≠ "" → dictContains mc.server_dict n = false →
      (mc.add_server (some h) (some p) none (some n) idN).1.wf) ∧
    (∀ (mc : Pkg.MultiClient) (h : String) (p : Int) (n : String) idN,
      mc.wf → dictContains mc.server_dict n = true →
      ¬ (mc.add_server (some h) (some p) none (some n) idN).1.wf) ∧
    (∀ (mc : Pkg.MultiClient) (s : Pkg.SimpleClient),
      mc.consistent → s ∈ mc.servers →
      (mc.remove_server (some s) none none none).1.wf) ∧
    (∀ (mc : Pkg.MultiClient) (n : String),
      mc.consistent →
      (mc.remove_server none (some n) none none).1.wf) ∧
    (∀ (mc : Pkg.MultiClient) (h : String) (p : Int),
      mc.consistent →
      (mc.remove_server none none (some h) (some p)).1.wf) := by
  refine ⟨?_, ?_, ?_, ?_, ?_⟩
  · intro mc h p n idN hwf hn hfree
    unfold Pkg.MultiClient.wf
    simp only [Pkg.MultiClient.add_server, Pkg.SimpleClient.init, canonicalize_hostport]
    simp only [hfree, Bool.false_eq_true, if_false, hn, dictInsert, List.map_append]
    exact hwf.append (List.Perm.refl _)
  · intro mc h p n idN hwf hdup hbad
    unfold Pkg.MultiClient.wf at hwf hbad
    simp only [Pkg.MultiClient.add_server, Pkg.SimpleClient.init, canonicalize_hostport,
      hdup, if_true] at hbad
    have h1 := hwf.length_eq
    have h2 := hbad.length_eq
    simp only [List.length_append, List.length_cons, List.length_nil] at h2
    omega
  · intro mc s hc hs
    exact ((removeByRef_consistent mc s hc hs).2.1).to_wf
  · intro mc n hc
    by_cases hn : n = ""
    · subst hn
      exact hc.to_wf
    · cases hg : dictGet mc.server_dict n with
      | none =>
        have hred : mc.remove_server none (some n) none none = (mc, some .keyError) := by
          simp [Pkg.MultiClient.remove_server, Pkg.MultiClient.get_server,
            truthyStr, hn, Option.bind, hg]
        rw [hred]
        exact hc.to_wf
      | some s =>
        have hsm : s ∈ mc.servers := by
          apply dictGet_map_name_mem mc.servers n s
          rw [← hc.1]
          exact hg
        have hred : mc.remove_server none (some n) none none = mc.removeByRef s := by
          simp [Pkg.MultiClient.remove_server, Pkg.MultiClient.get_server,
            truthyStr, hn, Option.bind, hg]
        rw [hred]
        exact ((removeByRef_consistent mc s hc hsm).2.1).to_wf
  · intro mc h p hc
    have hred : mc.remove_server none none (some h) (some p) =
        mc.removeAll (mc.servers.filter (fun s => h = s.host && p = s.port)) := rfl
    rw [hred]
    exact (removeAll_consistent _ mc hc
      (hc.servers_nodup.filter _)
      (fun y hy => List.mem_of_mem_filter hy)).to_wf

/-- The server that `mcN` holds under the name `n`. -/
def sN : Pkg.SimpleClient :=
  { protocol := "Proto"
    host := "h"
    port := 1
    frame := false
    timeout := DEFAULT_TIMEOUT
    hasFile := false
    enabled := true
    name := "n" }

/-- Witness for C5 (amended): a fresh-name add on the empty pool keeps
the invariant; the duplicate-name add on `mcN` breaks it; and removing
`mcN`'s member by reference, by name, and by host/port each leave the
invariant intact. -/
theorem C5_pool_invariant_witness :
    ((Pkg.MultiClient.init "Proto" false none).add_server
      (some "h") (some 1) none (some "n") 0).1.wf ∧
    ¬ (mcN.add_server (some "h2") (some 2) none (some "n") 1).1.wf ∧
    (mcN.remove_server (some sN) none none none).1.wf ∧
    (mcN.remove_server none (some "n") none none).1.wf ∧
    (mcN.remove_server none none (some "h") (some 1)).1.wf :=
  ⟨C5_pool_invariant.1 (Pkg.MultiClient.init "Proto" false none) "h" 1 "n" 0
      (by decide) (by decide) (by decide),
   C5_pool_invariant.2.1 mcN "h2" 2 "n" 1 (by decide) (by decide),
   C5_pool_invariant.2.2.1 mcN sN (by decide) (by decide),
   C5_pool_invariant.2.2.2.1 mcN "n" (by decide),
   C5_pool_invariant.2.2.2.2 mcN "h" 1 (by decide)⟩

/-- Sorting the items of two permuted keyword dictionaries yields the
same sorted list (Python's tuple order on items is antisymmetric). -/
theorem sortKwargs_eq_of_perm {l1 l2 : List (String × Val)} (h : l1.Perm l2) :
    sortKwargs l1 = sortKwargs l2 :=
  List.eq_of_perm_of_sorted
    ((List.perm_insertionSort itemLe l1).trans
      (h.trans (List.perm_insertionSort itemLe l2).symm))
    (List.sorted_insertionSort itemLe l1)
    (List.sorted_insertionSort itemLe l2)

/-- C8: with no custom hash function registered for the method, the
endpoint selected by the package hash router is a deterministic
function of the positional arguments and the SET of keyword arguments:
`selectedServer` is a pure function (so repeated calls with the same
arguments pick the same endpoint), and two keyword dictionaries that
are permutations of each other select the same endpoint, because the
default key sorts the keyword items before hashing. -/
theorem C8_hash_determinism :
    ∀ (pyHash : HashKey → Int) (self : Pkg.HashClient) k args kw1 kw2,
      dictGet self.hashfns k = none →
      kw1.Perm kw2 →
      Pkg.HashClient.selectedServer pyHash self k args kw1 =
        Pkg.HashClient.selectedServer pyHash self k args kw2 := by
  intro pyHash self k args kw1 kw2 hfn hperm
  have hk : Pkg.HashClient.hashkeyFor self k args kw1 =
      Pkg.HashClient.hashkeyFor self k args kw2 := by
    simp [Pkg.HashClient.hashkeyFor, hfn, defaultHashKey, sortKwargs_eq_of_perm hperm]
  simp [Pkg.HashClient.selectedServer, hk]

/-- A three-endpoint package hash pool with no custom hash functions. -/
def hcP3 : Pkg.HashClient :=
  { base := { protocol := "Proto"
              frame := false
              timeout := none
              servers := [sB1, sB2, sC3]
              server_dict := [("b1", sB1), ("b2", sB2), ("c3", sC3)] }
    all := { protocol := "Proto"
             frame := false
             timeout := none
             servers := [sB1, sB2, sC3]
             server_dict := [("b1", sB1), ("b2", sB2), ("c3", sC3)] }
    hashfns := [] }

/-- Witness for C8 on a three-endpoint pool: the same keyword arguments
supplied in two different orders select the same endpoint. -/
theorem C8_hash_determinism_witness :
    Pkg.HashClient.selectedServer pyHash0 hcP3 "m" [3] [("b", 2), ("a", 1)] =
      Pkg.HashClient.selectedServer pyHash0 hcP3 "m" [3] [("a", 1), ("b", 2)] :=
  C8_hash_determinism pyHash0 hcP3 "m" [3] [("b", 2), ("a", 1)] [("a", 1), ("b", 2)]
    rfl (by decide)
